import Mathlib

/-!
A shallow embedding of the HODL ledger pallets (`pallets/krypt` and
`pallets/kryptokurrency`) and proofs about them.

Balances (`T::Balance`, an unsigned `AtLeast32BitUnsigned` type) are modelled
as `Nat` together with an explicit largest representable value `typeMax`:
`checked_add` fails beyond `typeMax`, `saturating_add` clamps at `typeMax`,
and `saturating_sub`/truncated subtraction clamp at zero exactly as unsigned
machine arithmetic does.  Storage maps (`StorageMap`) are modelled as
association lists with overwrite-on-insert, and `StorageValue` items as a
`Nat` field (for `ValueQuery`, default zero) or an `Option Nat` field (for
the `OptionQuery` item `TotalIssuance`).
-/

namespace HODL

/-- `checked_add` on an unsigned type whose largest representable value is
`typeMax`: the exact sum if representable, otherwise failure. -/
def checkedAdd (typeMax x y : Nat) : Option Nat :=
  if x + y ≤ typeMax then some (x + y) else none

/-- `checked_sub` on an unsigned type: the exact difference if non-negative,
otherwise failure. -/
def checkedSub (x y : Nat) : Option Nat :=
  if y ≤ x then some (x - y) else none

/-- `saturating_add` on an unsigned type whose largest representable value is
`typeMax`. -/
def saturatingAdd (typeMax x y : Nat) : Nat :=
  min (x + y) typeMax

/-- `saturating_sub` on an unsigned type; `Nat` subtraction already clamps at
zero. -/
def saturatingSub (x y : Nat) : Nat :=
  x - y

/-- `StorageMap::insert`: overwrite the value under `k`, creating the entry
if absent. -/
def insertAL {A B : Type} [DecidableEq A] (m : List (A × B)) (k : A) (v : B) :
    List (A × B) :=
  match m with
  | [] => [(k, v)]
  | (k', v') :: rest => if k' = k then (k, v) :: rest else (k', v') :: insertAL rest k v

/-- `StorageMap::try_get`: the stored value under `k`, if any. -/
def lookupAL {A B : Type} [DecidableEq A] (m : List (A × B)) (k : A) : Option B :=
  match m with
  | [] => none
  | (k', v') :: rest => if k' = k then some v' else lookupAL rest k

namespace Krypt

/-- Configuration constants of the `krypt` pallet: the largest value
representable in `T::Balance`, and the `MaxTokenSupply` constant. -/
structure Config where
  typeMax : Nat
  maxTokenSupply : Nat
deriving DecidableEq

/-- `Error<T>` of the `krypt` pallet, together with the dispatch-level
failures: `BadOrigin` for a failed `ensure_root`/`ensure_signed`, and
`ExpectFailed` for a Rust panic from `.expect(..)` inside a dispatchable. -/
inductive Error
  | MintCausingTotalSupplyOverflow
  | MintTypeOverflow
  | InsufficientFunds
  | BadOrigin
  | ExpectFailed
deriving DecidableEq

/-- The dispatch origin supplied by the runtime. -/
inductive Origin (A : Type)
  | Root
  | Signed (who : A)
  | Nobody
deriving DecidableEq

/-- Pallet storage: the `TotalIssued` item (`ValueQuery`, so reads default to
zero and the field is plain `Nat`) and the `BalanceToAccount` map. -/
structure State (A : Type) where
  totalIssued : Nat
  balances : List (A × Nat)
deriving DecidableEq

/-- The empty ledger: nothing minted, no account entries. -/
def initState {A : Type} : State A :=
  { totalIssued := 0, balances := [] }

variable {A : Type} [DecidableEq A]

/-- Getter `get_balance_of` over the `ValueQuery` map `BalanceToAccount`:
absent entries read as zero. -/
def get_balance_of (st : State A) (who : A) : Nat :=
  (lookupAL st.balances who).getD 0

/-- Helper `does_adding_overflow_maxtokensupply`: `checked_add` of the amount
onto `TotalIssued`, failing with `MintTypeOverflow` on type overflow and with
`MintCausingTotalSupplyOverflow` when the new supply exceeds
`MaxTokenSupply`. -/
def does_adding_overflow_maxtokensupply (cfg : Config) (st : State A)
    (amount : Nat) : Except Error Unit :=
  match checkedAdd cfg.typeMax st.totalIssued amount with
  | none => .error .MintTypeOverflow
  | some new_supply =>
      if new_supply ≤ cfg.maxTokenSupply then .ok () else
        .error .MintCausingTotalSupplyOverflow

/-- Helper `include_mint_amount`: writes
`amount.checked_add(total_issued).expect(..)` to `TotalIssued`; the `none`
case is the `.expect` panic, modelled as `Option` failure. -/
def include_mint_amount (cfg : Config) (st : State A) (amount : Nat) :
    Option (State A) :=
  (checkedAdd cfg.typeMax amount st.totalIssued).map
    fun t => { st with totalIssued := t }

/-- Dispatchable `mint`: `ensure_root`, then
`ensure!(does_adding_overflow_maxtokensupply(amount).is_ok(),
MintCausingTotalSupplyOverflow)` — note the `ensure!` surfaces
`MintCausingTotalSupplyOverflow` for every helper failure — then credits the
benefactor with `previous.saturating_add(amount)` and updates `TotalIssued`
through `include_mint_amount`. -/
def mint (cfg : Config) (origin : Origin A) (amount : Nat) (benefactor : A)
    (st : State A) : Except Error (State A) :=
  match origin with
  | .Root =>
      match does_adding_overflow_maxtokensupply cfg st amount with
      | .error _ => .error .MintCausingTotalSupplyOverflow
      | .ok () =>
          let previous_balance := (lookupAL st.balances benefactor).getD 0
          let final_balance := saturatingAdd cfg.typeMax previous_balance amount
          let st' : State A :=
            { st with balances := insertAL st.balances benefactor final_balance }
          match include_mint_amount cfg st' amount with
          | some st'' => .ok st''
          | none => .error .ExpectFailed
  | _ => .error .BadOrigin

/-- Helper `has_sufficient_funds`: `try_get` on the map, `true` only when an
entry is stored and holds at least `amount`; an absent entry is `false`. -/
def has_sufficient_funds (st : State A) (s : A) (amount : Nat) : Bool :=
  match lookupAL st.balances s with
  | some balance => amount ≤ balance
  | none => false

/-- Helper `transfer_unchecked`: reads the sender balance through the
`ValueQuery` getter, performs `checked_sub(amount).expect(..)` (the `none`
case models the panic), writes the new sender balance, and then writes
`amount` itself — not the previous recipient balance plus `amount` — as the
recipient entry, exactly as `BalanceToAccount::insert(&to, amount)` does. -/
def transfer_unchecked (st : State A) (sender toAcc : A) (amount : Nat) :
    Option (State A) :=
  let previous_sender_balance := get_balance_of st sender
  (checkedSub previous_sender_balance amount).map fun new_sender_balance =>
    { st with
      balances := insertAL (insertAL st.balances sender new_sender_balance) toAcc amount }

/-- Dispatchable `transfer_from`: `ensure_signed`, then
`ensure!(has_sufficient_funds(sender, amount), InsufficientFunds)`, then the
recipient lookup (modelled as the identity) and `transfer_unchecked`. -/
def transfer_from (origin : Origin A) (toAcc : A) (amount : Nat) (st : State A) :
    Except Error (State A) :=
  match origin with
  | .Signed sender =>
      if has_sufficient_funds st sender amount then
        match transfer_unchecked st sender toAcc amount with
        | some st' => .ok st'
        | none => .error .ExpectFailed
      else .error .InsufficientFunds
  | _ => .error .BadOrigin

/-- Runtime dispatch of a root `mint`: a failed dispatch commits no storage
change (every `ensure!` in `mint` fires before the first write). -/
def dispatchMint (cfg : Config) (amount : Nat) (benefactor : A) (st : State A) :
    State A :=
  match mint cfg .Root amount benefactor st with
  | .ok st' => st'
  | .error _ => st

/-- Runtime dispatch of a sequence of root `mint` calls. -/
def applyMints (cfg : Config) (ops : List (Nat × A)) (st : State A) : State A :=
  ops.foldl (fun st op => dispatchMint cfg op.1 op.2 st) st

/-- Runtime dispatch of a signed `transfer_from`: a failed dispatch commits
no storage change. -/
def dispatchTransfer (origin : Origin A) (toAcc : A) (amount : Nat) (st : State A) :
    State A :=
  match transfer_from origin toAcc amount st with
  | .ok st' => st'
  | .error _ => st

/-- The sum of all stored account balances. -/
def sumBalances (st : State A) : Nat :=
  (st.balances.map Prod.snd).sum

end Krypt

namespace Kryptokurrency

/-- `AccountData`: the per-account record of the `kryptokurrency` pallet. -/
structure AccountData where
  free : Nat
  locked : Nat
deriving DecidableEq

/-- `PositiveImbalance<T>`: a pending increase of `TotalIssuance`, wrapping
one `Balance` magnitude (the tuple field `.0` is `mag` here). -/
structure PositiveImbalance where
  mag : Nat
deriving DecidableEq

/-- `NegativeImbalance<T>`: a pending decrease of `TotalIssuance`. -/
structure NegativeImbalance where
  mag : Nat
deriving DecidableEq

/-- `frame_support::traits::SameOrOther`, restricted to the three cases the
pallet uses. -/
inductive SameOrOther (S O : Type)
  | same (s : S)
  | other (o : O)
  | none
deriving DecidableEq

/-- `PositiveImbalance::split`: the first piece takes `self.0.min(amount)`,
the second the remainder `self.0 - first`; the original value is
`mem::forget`-ten so only the two pieces remain live. -/
def PositiveImbalance.split (self : PositiveImbalance) (amount : Nat) :
    PositiveImbalance × PositiveImbalance :=
  let first := min self.mag amount
  let second := self.mag - first
  (⟨first⟩, ⟨second⟩)

/-- `PositiveImbalance::merge`: saturating sum of the magnitudes; the
absorbed `other` is `mem::forget`-ten. -/
def PositiveImbalance.merge (typeMax : Nat) (self other : PositiveImbalance) :
    PositiveImbalance :=
  ⟨saturatingAdd typeMax self.mag other.mag⟩

/-- `PositiveImbalance::offset`: `cmp` of the two magnitudes; on `Less` the
residue is the opposite kind, on `Greater` the same kind, on `Equal` the
`None` case. -/
def PositiveImbalance.offset (self : PositiveImbalance)
    (other : NegativeImbalance) : SameOrOther PositiveImbalance NegativeImbalance :=
  match compare self.mag other.mag with
  | .lt => .other ⟨other.mag - self.mag⟩
  | .gt => .same ⟨self.mag - other.mag⟩
  | .eq => .none

/-- `NegativeImbalance::split`, identical in shape to the positive one. -/
def NegativeImbalance.split (self : NegativeImbalance) (amount : Nat) :
    NegativeImbalance × NegativeImbalance :=
  let first := min self.mag amount
  let second := self.mag - first
  (⟨first⟩, ⟨second⟩)

/-- `NegativeImbalance::merge`: saturating sum of the magnitudes. -/
def NegativeImbalance.merge (typeMax : Nat) (self other : NegativeImbalance) :
    NegativeImbalance :=
  ⟨saturatingAdd typeMax self.mag other.mag⟩

/-- `NegativeImbalance::offset`, symmetric to the positive one. -/
def NegativeImbalance.offset (self : NegativeImbalance)
    (other : PositiveImbalance) : SameOrOther NegativeImbalance PositiveImbalance :=
  match compare self.mag other.mag with
  | .lt => .other ⟨other.mag - self.mag⟩
  | .gt => .same ⟨self.mag - other.mag⟩
  | .eq => .none

/-- `Drop for PositiveImbalance`, as a function from the stored
`TotalIssuance` option to the pair (option written back by
`TotalIssuance::mutate`, value returned by the closure).

`StorageValue::mutate` hands the stored option to the closure by mutable
reference, writes the (possibly modified) option back afterwards, and only
passes the closure result through to the caller of `mutate` (here the drop
glue, which discards it).  The closure body copies `*key` into `total`
(`Balance: Copy`), evaluates `total.saturating_add(self.0)` without binding
the result, and never assigns through the reference, so the stored option is
written back exactly as it was read; in the uninitialized arm the closure
merely returns `T::MaxTokenSupply::get()` without storing it. -/
def PositiveImbalance.drop (typeMax maxTokenSupply : Nat)
    (self : PositiveImbalance) (totalIssuance : Option Nat) :
    Option Nat × Nat :=
  match totalIssuance with
  | some total =>
      let _ := saturatingAdd typeMax total self.mag
      (some total, total)
  | none => (none, maxTokenSupply)

/-- `Drop for NegativeImbalance`, modelled the same way: the closure
evaluates `total.saturating_sub(self.0)` without binding the result and
never assigns through the mutable reference, and the uninitialized arm
merely returns `T::Balance::zero()`. -/
def NegativeImbalance.drop (self : NegativeImbalance)
    (totalIssuance : Option Nat) : Option Nat × Nat :=
  match totalIssuance with
  | some total =>
      let _ := saturatingSub total self.mag
      (some total, total)
  | none => (none, 0)

/-- The storage the genesis build writes: the `AccountStore` map and the
`OptionQuery` item `TotalIssuance`. -/
structure GenesisState (A : Type) where
  accountStore : List (A × AccountData)
  totalIssuance : Option Nat
deriving DecidableEq

/-- `GenesisBuild::build`: folds the seed balances with plain `+` from zero,
resolves an absent `max_token_supply` override to `Zero::zero()`, asserts
`total ≤ max` and then asserts that the `BTreeSet` of seed accounts has as
many elements as the seed list (no duplicates); both asserts abort (`none`)
before any storage write.  On success every seed pair is stored as
`AccountData { free, ..Default::default() }` (so `locked = 0`) and
`TotalIssuance` is set to the seed total. -/
def genesisBuild {A : Type} [DecidableEq A] (balances : List (A × Nat))
    (max_token_supply : Option Nat) : Option (GenesisState A) :=
  let total_issuance_at_genesis := balances.foldl (fun acc p => acc + p.2) 0
  let max_tokens_at_genesis :=
    match max_token_supply with
    | some t => t
    | none => 0
  if total_issuance_at_genesis ≤ max_tokens_at_genesis then
    if (balances.map Prod.fst).dedup.length = balances.length then
      some
        { accountStore :=
            balances.foldl (fun store p => insertAL store p.1 ⟨p.2, 0⟩) [],
          totalIssuance := some total_issuance_at_genesis }
    else none
  else none

/-- `Default for GenesisConfig`: the `max_token_supply` field defaults to
`None` when the configured `MaxTokenSupply` is zero and to
`Some(MaxTokenSupply)` otherwise. -/
def genesisConfigDefaultMaxTokenSupply (runtime_max_token : Nat) : Option Nat :=
  if runtime_max_token = 0 then none else some runtime_max_token

/-- The override-resolution rule as the specification words it, for
comparison with `genesisBuild` (which resolves an absent override to zero):
an absent override resolves to the configured cap, itself defaulting to zero
when the configured cap is zero. -/
def specResolvedMaxTokenSupply (cap : Nat) (override : Option Nat) : Nat :=
  match override with
  | some t => t
  | none => if cap = 0 then 0 else cap

end Kryptokurrency

/-! ### Lemmas about the storage-map model -/

theorem lookupAL_insertAL_self {A B : Type} [DecidableEq A] (m : List (A × B))
    (k : A) (v : B) : lookupAL (insertAL m k v) k = some v := by
  induction m with
  | nil => simp [insertAL, lookupAL]
  | cons p rest ih =>
      obtain ⟨ka, va⟩ := p
      by_cases h : ka = k
      · subst h
        simp [insertAL, lookupAL]
      · simp [insertAL, lookupAL, h, ih]

theorem lookupAL_insertAL_ne {A B : Type} [DecidableEq A] (m : List (A × B))
    (k k' : A) (v : B) (h : k' ≠ k) :
    lookupAL (insertAL m k v) k' = lookupAL m k' := by
  induction m with
  | nil => simp [insertAL, lookupAL, Ne.symm h]
  | cons p rest ih =>
      obtain ⟨ka, va⟩ := p
      by_cases hk : ka = k
      · subst hk
        simp [insertAL, lookupAL, Ne.symm h]
      · simp [insertAL, lookupAL, hk, ih]

theorem lookupAL_foldl_insert_not_mem {A B C : Type} [DecidableEq A]
    (f : A × C → B) (l : List (A × C)) (s0 : List (A × B)) (k : A)
    (hk : k ∉ l.map Prod.fst) :
    lookupAL (l.foldl (fun s p => insertAL s p.1 (f p)) s0) k = lookupAL s0 k := by
  induction l generalizing s0 with
  | nil => rfl
  | cons p rest ih =>
      simp only [List.map_cons, List.mem_cons] at hk
      push_neg at hk
      rw [List.foldl_cons, ih _ hk.2, lookupAL_insertAL_ne _ _ _ _ hk.1]

theorem lookupAL_foldl_insert_mem {A B C : Type} [DecidableEq A]
    (f : A × C → B) (l : List (A × C)) (s0 : List (A × B)) (k : A) (c : C)
    (hnd : (l.map Prod.fst).Nodup) (hmem : (k, c) ∈ l) :
    lookupAL (l.foldl (fun s p => insertAL s p.1 (f p)) s0) k = some (f (k, c)) := by
  induction l generalizing s0 with
  | nil => cases hmem
  | cons p rest ih =>
      simp only [List.map_cons, List.nodup_cons] at hnd
      rcases List.mem_cons.mp hmem with heq | hmem'
      · subst heq
        rw [List.foldl_cons,
          lookupAL_foldl_insert_not_mem f rest _ k (by simpa using hnd.1),
          lookupAL_insertAL_self]
      · rw [List.foldl_cons]
        exact ih _ hnd.2 hmem'

theorem checkedAdd_eq_some {typeMax x y v : Nat} :
    checkedAdd typeMax x y = some v ↔ x + y ≤ typeMax ∧ v = x + y := by
  unfold checkedAdd
  split_ifs with h
  · simp [h, eq_comm]
  · simp [h]

/-! ### Lemmas about the krypt pallet -/

namespace Krypt

variable {A : Type} [DecidableEq A]

theorem mint_root_ok (cfg : Config) (amount : Nat) (benefactor : A)
    (st : State A) (h1 : st.totalIssued + amount ≤ cfg.typeMax)
    (h2 : st.totalIssued + amount ≤ cfg.maxTokenSupply) :
    mint cfg .Root amount benefactor st =
      .ok { totalIssued := amount + st.totalIssued,
            balances := insertAL st.balances benefactor
              (saturatingAdd cfg.typeMax
                ((lookupAL st.balances benefactor).getD 0) amount) } := by
  have hc : checkedAdd cfg.typeMax st.totalIssued amount =
      some (st.totalIssued + amount) := by
    unfold checkedAdd
    rw [if_pos h1]
  have hh : does_adding_overflow_maxtokensupply cfg st amount = .ok () := by
    simp [does_adding_overflow_maxtokensupply, hc, h2]
  have hi : checkedAdd cfg.typeMax amount st.totalIssued =
      some (amount + st.totalIssued) := by
    unfold checkedAdd
    rw [if_pos (by omega)]
  simp [mint, hh, include_mint_amount, hi]

theorem mint_root_error_type (cfg : Config) (st : State A) (amount : Nat)
    (benefactor : A) (h : cfg.typeMax < st.totalIssued + amount) :
    mint cfg .Root amount benefactor st = .error .MintCausingTotalSupplyOverflow ∧
    does_adding_overflow_maxtokensupply cfg st amount = .error .MintTypeOverflow := by
  have hc : checkedAdd cfg.typeMax st.totalIssued amount = none := by
    unfold checkedAdd
    rw [if_neg (by omega)]
  have hh : does_adding_overflow_maxtokensupply cfg st amount =
      .error .MintTypeOverflow := by
    simp [does_adding_overflow_maxtokensupply, hc]
  exact ⟨by simp [mint, hh], hh⟩

theorem mint_root_error_cap (cfg : Config) (st : State A) (amount : Nat)
    (benefactor : A) (h1 : st.totalIssued + amount ≤ cfg.typeMax)
    (h2 : cfg.maxTokenSupply < st.totalIssued + amount) :
    mint cfg .Root amount benefactor st = .error .MintCausingTotalSupplyOverflow ∧
    does_adding_overflow_maxtokensupply cfg st amount =
      .error .MintCausingTotalSupplyOverflow := by
  have hc : checkedAdd cfg.typeMax st.totalIssued amount =
      some (st.totalIssued + amount) := by
    unfold checkedAdd
    rw [if_pos h1]
  have hh : does_adding_overflow_maxtokensupply cfg st amount =
      .error .MintCausingTotalSupplyOverflow := by
    simp only [does_adding_overflow_maxtokensupply, hc]
    rw [if_neg (by omega)]
  exact ⟨by simp [mint, hh], hh⟩

theorem mint_root_error_any (cfg : Config) (st : State A) (amount : Nat)
    (benefactor : A) (h : cfg.maxTokenSupply < st.totalIssued + amount) :
    mint cfg .Root amount benefactor st = .error .MintCausingTotalSupplyOverflow := by
  by_cases h1 : st.totalIssued + amount ≤ cfg.typeMax
  · exact (mint_root_error_cap cfg st amount benefactor h1 h).1
  · exact (mint_root_error_type cfg st amount benefactor (by omega)).1

theorem dispatchMint_totalIssued_le (cfg : Config) (st : State A)
    (amount : Nat) (benefactor : A) (h : st.totalIssued ≤ cfg.maxTokenSupply) :
    (dispatchMint cfg amount benefactor st).totalIssued ≤ cfg.maxTokenSupply := by
  unfold dispatchMint
  by_cases h2 : st.totalIssued + amount ≤ cfg.maxTokenSupply
  · by_cases h1 : st.totalIssued + amount ≤ cfg.typeMax
    · rw [mint_root_ok cfg amount benefactor st h1 h2]
      simpa using by omega
    · rw [(mint_root_error_type cfg st amount benefactor (by omega)).1]
      exact h
  · rw [mint_root_error_any cfg st amount benefactor (by omega)]
    exact h

/-! ### Claim theorems about the krypt pallet -/

/-- C1: code-bug witness.  The claim says a successful transfer increments
the recipient balance by `amount`; `transfer_unchecked` instead stores
`amount` itself as the recipient entry.  Starting from balances
`{1 ↦ 5, 2 ↦ 3}`, a transfer of 2 from account 1 to account 2 succeeds and
leaves account 2 with balance 2, where the claim requires 3 + 2 = 5. -/
theorem transfer_overwrites_recipient_balance :
    transfer_from (Origin.Signed 1) 2 2 (⟨8, [(1, 5), (2, 3)]⟩ : State Nat) =
      .ok ⟨8, [(1, 3), (2, 2)]⟩ ∧
    get_balance_of (⟨8, [(1, 5), (2, 3)]⟩ : State Nat) 2 = 3 ∧
    get_balance_of (⟨8, [(1, 3), (2, 2)]⟩ : State Nat) 2 = 2 := by
  exact ⟨rfl, rfl, rfl⟩

/-- C2: code-bug witness.  After the successful operations mint 5 to account
0, mint 4 to account 1 and transfer 2 from account 0 to account 1 (all from
the empty ledger, `MaxTokenSupply = 1000`), `TotalIssued` is 9 but the
stored balances sum to 5: the recipient-overwriting transfer destroys the
4 tokens account 1 held, breaking conservation. -/
theorem conservation_violated_by_transfer :
    mint ⟨1000, 1000⟩ (Origin.Root : Origin Nat) 5 0 initState = .ok ⟨5, [(0, 5)]⟩ ∧
    mint ⟨1000, 1000⟩ (Origin.Root : Origin Nat) 4 1 ⟨5, [(0, 5)]⟩ =
      .ok ⟨9, [(0, 5), (1, 4)]⟩ ∧
    transfer_from (Origin.Signed 0) 1 2 (⟨9, [(0, 5), (1, 4)]⟩ : State Nat) =
      .ok ⟨9, [(0, 3), (1, 2)]⟩ ∧
    sumBalances (⟨9, [(0, 3), (1, 2)]⟩ : State Nat) = 5 ∧
    (⟨9, [(0, 3), (1, 2)]⟩ : State Nat).totalIssued = 9 := by
  exact ⟨rfl, rfl, rfl, rfl, rfl⟩

/-- C4: code-bug witness.  A self-transfer of 3 by account 1 holding balance
5 succeeds but leaves the account with balance 3 (the transfer amount), not
with its previous balance 5: the debit writes 5 - 3 = 2 and the recipient
write then overwrites the same entry with the amount 3. -/
theorem self_transfer_sets_balance_to_amount :
    transfer_from (Origin.Signed 1) 1 3 (⟨5, [(1, 5)]⟩ : State Nat) =
      .ok ⟨5, [(1, 3)]⟩ ∧
    get_balance_of (⟨5, [(1, 5)]⟩ : State Nat) 1 = 5 ∧
    get_balance_of (⟨5, [(1, 3)]⟩ : State Nat) 1 = 3 := by
  exact ⟨rfl, rfl, rfl⟩

/-- C5: counterexample to the claim as stated.  With `typeMax = 10`,
`MaxTokenSupply = 10` and `TotalIssued = 8`, minting 5 overflows the Balance
type, yet `mint` fails with `MintCausingTotalSupplyOverflow`, not with the
`MintTypeOverflow` the claim requires: the `ensure!` in `mint` replaces
every failure of `does_adding_overflow_maxtokensupply` by
`MintCausingTotalSupplyOverflow`. -/
theorem mint_type_overflow_masked :
    mint ⟨10, 10⟩ (Origin.Root : Origin Nat) 5 0 ⟨8, []⟩ =
      .error .MintCausingTotalSupplyOverflow ∧
    Error.MintCausingTotalSupplyOverflow ≠ Error.MintTypeOverflow := by
  exact ⟨rfl, by decide⟩

/-- C5 (amended): when `TotalIssued + amount` overflows the Balance type,
the helper `does_adding_overflow_maxtokensupply` reports `MintTypeOverflow`
but `mint` itself surfaces `MintCausingTotalSupplyOverflow`; when the new
total is representable but exceeds `MaxTokenSupply`, both the helper and
`mint` report `MintCausingTotalSupplyOverflow`. -/
theorem mint_overflow_error_cases {A : Type} [DecidableEq A] (cfg : Config)
    (st : State A) (amount : Nat) (benefactor : A) :
    (cfg.typeMax < st.totalIssued + amount →
      does_adding_overflow_maxtokensupply cfg st amount = .error .MintTypeOverflow ∧
      mint cfg .Root amount benefactor st = .error .MintCausingTotalSupplyOverflow) ∧
    (st.totalIssued + amount ≤ cfg.typeMax →
      cfg.maxTokenSupply < st.totalIssued + amount →
      does_adding_overflow_maxtokensupply cfg st amount =
        .error .MintCausingTotalSupplyOverflow ∧
      mint cfg .Root amount benefactor st = .error .MintCausingTotalSupplyOverflow) := by
  constructor
  · intro h
    have hm := mint_root_error_type cfg st amount benefactor h
    exact ⟨hm.2, hm.1⟩
  · intro h1 h2
    have hm := mint_root_error_cap cfg st amount benefactor h1 h2
    exact ⟨hm.2, hm.1⟩

/-- C5 witness: the amended claim evaluated with `typeMax = 20`,
`MaxTokenSupply = 10`, `TotalIssued = 8`, at the type-overflowing amount 15
and at the representable cap-exceeding amount 3. -/
theorem mint_overflow_error_cases_witness :
    does_adding_overflow_maxtokensupply ⟨20, 10⟩ (⟨8, []⟩ : State Nat) 15 =
      .error .MintTypeOverflow ∧
    mint ⟨20, 10⟩ (Origin.Root : Origin Nat) 15 0 ⟨8, []⟩ =
      .error .MintCausingTotalSupplyOverflow ∧
    does_adding_overflow_maxtokensupply ⟨20, 10⟩ (⟨8, []⟩ : State Nat) 3 =
      .error .MintCausingTotalSupplyOverflow ∧
    mint ⟨20, 10⟩ (Origin.Root : Origin Nat) 3 0 ⟨8, []⟩ =
      .error .MintCausingTotalSupplyOverflow := by
  obtain ⟨ha, hb⟩ := (mint_overflow_error_cases ⟨20, 10⟩ (⟨8, []⟩ : State Nat) 15 0).1
    (by decide)
  obtain ⟨hc, hd⟩ := (mint_overflow_error_cases ⟨20, 10⟩ (⟨8, []⟩ : State Nat) 3 0).2
    (by decide) (by decide)
  exact ⟨ha, hb, hc, hd⟩

/-- C6: starting from the empty ledger, no sequence of root mints can push
`TotalIssued` beyond `MaxTokenSupply`; and any mint with
`TotalIssued + amount > MaxTokenSupply` returns
`MintCausingTotalSupplyOverflow` and leaves the whole state — `TotalIssued`
and every account balance — unchanged. -/
theorem mint_cap_invariant {A : Type} [DecidableEq A] (cfg : Config) :
    (∀ ops : List (Nat × A),
      (applyMints cfg ops initState).totalIssued ≤ cfg.maxTokenSupply) ∧
    (∀ (st : State A) (amount : Nat) (benefactor : A),
      cfg.maxTokenSupply < st.totalIssued + amount →
      mint cfg .Root amount benefactor st = .error .MintCausingTotalSupplyOverflow ∧
      dispatchMint cfg amount benefactor st = st) := by
  constructor
  · have key : ∀ (ops : List (Nat × A)) (st : State A),
        st.totalIssued ≤ cfg.maxTokenSupply →
        (applyMints cfg ops st).totalIssued ≤ cfg.maxTokenSupply := by
      intro ops
      induction ops with
      | nil => exact fun st h => h
      | cons op rest ih =>
          intro st h
          simp only [applyMints, List.foldl_cons]
          exact ih _ (dispatchMint_totalIssued_le cfg st op.1 op.2 h)
    exact fun ops => key ops initState (Nat.zero_le _)
  · intro st amount benefactor h
    have hm := mint_root_error_any cfg st amount benefactor h
    refine ⟨hm, ?_⟩
    unfold dispatchMint
    rw [hm]

/-- C6 witness: with `MaxTokenSupply = 1000`, the mint sequence
600-then-500 ends with `TotalIssued ≤ 1000`, and the second mint on the
post-600 state fails with `MintCausingTotalSupplyOverflow` leaving the state
untouched. -/
theorem mint_cap_invariant_witness :
    (applyMints ⟨1000, 1000⟩ [(600, 0), (500, 1)] (initState (A := Nat))).totalIssued
      ≤ 1000 ∧
    mint ⟨1000, 1000⟩ (Origin.Root : Origin Nat) 500 1 ⟨600, [(0, 600)]⟩ =
      .error .MintCausingTotalSupplyOverflow ∧
    dispatchMint ⟨1000, 1000⟩ 500 1 (⟨600, [(0, 600)]⟩ : State Nat) =
      ⟨600, [(0, 600)]⟩ := by
  have h := mint_cap_invariant (A := Nat) ⟨1000, 1000⟩
  have h2 := h.2 ⟨600, [(0, 600)]⟩ 500 1 (by decide)
  exact ⟨h.1 [(600, 0), (500, 1)], h2.1, h2.2⟩

/-- C10: a signed caller with no stored entry in `BalanceToAccount` cannot
transfer at all — `has_sufficient_funds` treats the missing entry as
insufficient, so even a zero-amount transfer fails with
`InsufficientFunds` — while a caller with a stored zero balance can transfer
zero successfully. -/
theorem missing_account_insufficient_funds {A : Type} [DecidableEq A]
    (st : State A) (sender toAcc : A) (amount : Nat) :
    (lookupAL st.balances sender = none →
      transfer_from (Origin.Signed sender) toAcc amount st =
        .error .InsufficientFunds) ∧
    (lookupAL st.balances sender = some 0 →
      transfer_from (Origin.Signed sender) toAcc 0 st =
        .ok { st with
              balances := insertAL (insertAL st.balances sender 0) toAcc 0 }) := by
  constructor
  · intro h
    simp [transfer_from, has_sufficient_funds, h]
  · intro h
    simp [transfer_from, has_sufficient_funds, h, transfer_unchecked,
      get_balance_of, checkedSub]

/-- C10 witness: account 7 absent in the empty ledger cannot transfer 4 (or
anything), and account 7 with a stored zero balance can transfer 0. -/
theorem missing_account_insufficient_funds_witness :
    transfer_from (Origin.Signed 7) 3 4 (⟨0, []⟩ : State Nat) =
      .error .InsufficientFunds ∧
    transfer_from (Origin.Signed 7) 3 0 (⟨0, [(7, 0)]⟩ : State Nat) =
      .ok ⟨0, [(7, 0), (3, 0)]⟩ := by
  constructor
  · exact (missing_account_insufficient_funds (⟨0, []⟩ : State Nat) 7 3 4).1 rfl
  · exact (missing_account_insufficient_funds (⟨0, [(7, 0)]⟩ : State Nat) 7 3 0).2 rfl

end Krypt

/-! ### Lemmas and claim theorems about the kryptokurrency pallet -/

theorem foldl_add_snd {A : Type} (l : List (A × Nat)) (n : Nat) :
    l.foldl (fun acc p => acc + p.2) n = n + (l.map Prod.snd).sum := by
  induction l generalizing n with
  | nil => simp
  | cons p rest ih =>
      simp only [List.foldl_cons, List.map_cons, List.sum_cons, ih]
      omega

theorem dedup_length_eq_iff_nodup {A : Type} [DecidableEq A] (l : List A) :
    l.dedup.length = l.length ↔ l.Nodup := by
  constructor
  · intro h
    have hs : l.dedup = l := (List.dedup_sublist l).eq_of_length h
    exact hs ▸ l.nodup_dedup
  · intro h
    rw [List.dedup_eq_self.mpr h]

namespace Kryptokurrency

variable {A : Type} [DecidableEq A]

theorem genesisBuild_eq (balances : List (A × Nat)) (override : Option Nat) :
    genesisBuild balances override =
      if (balances.map Prod.snd).sum ≤ override.getD 0 then
        if (balances.map Prod.fst).Nodup then
          some { accountStore :=
                   balances.foldl (fun store p => insertAL store p.1 ⟨p.2, 0⟩) [],
                 totalIssuance := some ((balances.map Prod.snd).sum) }
        else none
      else none := by
  have hlen : ((balances.map Prod.fst).dedup.length = balances.length) ↔
      (balances.map Prod.fst).Nodup := by
    rw [show balances.length = (balances.map Prod.fst).length from
      (List.length_map _ _).symm]
    exact dedup_length_eq_iff_nodup _
  cases override with
  | none =>
      unfold genesisBuild
      rw [foldl_add_snd]
      simp only [Nat.zero_add, Option.getD_none, hlen]
  | some t =>
      unfold genesisBuild
      rw [foldl_add_snd]
      simp only [Nat.zero_add, Option.getD_some, hlen]

theorem genesisBuild_eq_none_iff (balances : List (A × Nat)) (override : Option Nat) :
    genesisBuild balances override = none ↔
      ¬ (balances.map Prod.fst).Nodup ∨
        override.getD 0 < (balances.map Prod.snd).sum := by
  rw [genesisBuild_eq]
  split_ifs with h1 h2
  · refine iff_of_false (by simp) ?_
    push_neg
    exact ⟨h2, h1⟩
  · exact iff_of_true rfl (Or.inl h2)
  · exact iff_of_true rfl (Or.inr (by omega))

/-- C3: code-bug witness.  The claim says dropping an unconsumed Positive
imbalance of magnitude 5 on `TotalIssuance = Some(10)` stores 15 (and seeds
`MaxTokenSupply` when uninitialized), and that a Negative drop stores 5 (or
seeds zero).  In the code both `Drop` closures compute the saturating
sum/difference without binding the result and never assign through the
mutable key, so `mutate` writes the stored option back unchanged in all four
cases. -/
theorem imbalance_drop_leaves_total_issuance_unchanged :
    (PositiveImbalance.drop 1000 1000 ⟨5⟩ (some 10)).1 = some 10 ∧
    (PositiveImbalance.drop 1000 1000 ⟨5⟩ none).1 = none ∧
    (NegativeImbalance.drop ⟨5⟩ (some 10)).1 = some 10 ∧
    (NegativeImbalance.drop ⟨5⟩ none).1 = none := by
  exact ⟨rfl, rfl, rfl, rfl⟩

/-- C8: `offset` compares magnitudes and returns the `None` case on
equality, the `Same` case with the difference when the receiver is strictly
larger, and the `Other` case with the difference when the argument is
strictly larger — for both the Positive and the Negative receiver. -/
theorem offset_cases (p n : Nat) :
    PositiveImbalance.offset ⟨p⟩ ⟨n⟩ =
      (if p = n then .none else
        if n < p then .same ⟨p - n⟩ else .other ⟨n - p⟩) ∧
    NegativeImbalance.offset ⟨n⟩ ⟨p⟩ =
      (if n = p then .none else
        if p < n then .same ⟨n - p⟩ else .other ⟨p - n⟩) := by
  rcases Nat.lt_trichotomy p n with h | h | h
  · simp [PositiveImbalance.offset, NegativeImbalance.offset,
      Nat.compare_eq_lt.mpr h, Nat.compare_eq_gt.mpr h, Nat.ne_of_lt h,
      Ne.symm (Nat.ne_of_lt h), h, Nat.lt_asymm h]
  · subst h
    simp [PositiveImbalance.offset, NegativeImbalance.offset,
      show compare p p = Ordering.eq from Nat.compare_eq_eq.mpr rfl]
  · simp [PositiveImbalance.offset, NegativeImbalance.offset,
      Nat.compare_eq_gt.mpr h, Nat.compare_eq_lt.mpr h, Nat.ne_of_gt h,
      Ne.symm (Nat.ne_of_gt h), h, Nat.lt_asymm h]

/-- C9: `split` on an imbalance of magnitude `m` with amount `k` yields two
pieces of the same sign with magnitudes `min m k` and `m - min m k`, and
`merge` of the two pieces reproduces the original magnitude `m` (`m` being
representable, the saturating sum is exact). -/
theorem split_merge_conservation (typeMax m k : Nat) (hm : m ≤ typeMax) :
    PositiveImbalance.split ⟨m⟩ k = (⟨min m k⟩, ⟨m - min m k⟩) ∧
    PositiveImbalance.merge typeMax ⟨min m k⟩ ⟨m - min m k⟩ = ⟨m⟩ ∧
    NegativeImbalance.split ⟨m⟩ k = (⟨min m k⟩, ⟨m - min m k⟩) ∧
    NegativeImbalance.merge typeMax ⟨min m k⟩ ⟨m - min m k⟩ = ⟨m⟩ := by
  refine ⟨rfl, ?_, rfl, ?_⟩
  all_goals
    simp only [PositiveImbalance.merge, NegativeImbalance.merge, saturatingAdd,
      PositiveImbalance.mk.injEq, NegativeImbalance.mk.injEq]
    omega

/-- C9 witness: the split/merge round trip on a Positive and a Negative
imbalance of magnitude 7 split at 3, with `typeMax = 100`. -/
theorem split_merge_conservation_witness :
    PositiveImbalance.split ⟨7⟩ 3 = (⟨min 7 3⟩, ⟨7 - min 7 3⟩) ∧
    PositiveImbalance.merge 100 ⟨min 7 3⟩ ⟨7 - min 7 3⟩ = ⟨7⟩ ∧
    NegativeImbalance.split ⟨7⟩ 3 = (⟨min 7 3⟩, ⟨7 - min 7 3⟩) ∧
    NegativeImbalance.merge 100 ⟨min 7 3⟩ ⟨7 - min 7 3⟩ = ⟨7⟩ :=
  split_merge_conservation 100 7 3 (by decide)

/-- C7: counterexample to the claim as stated.  Reading the absent override
per the specification rule (it resolves to the configured cap, here 100),
the single-seed list `[(0, 50)]` has no duplicate and sums to 50 ≤ 100, so
the claim requires genesis to commit; the build instead resolves the absent
override to zero and aborts because 50 > 0. -/
theorem genesis_absent_override_counterexample :
    genesisBuild (A := Nat) [(0, 50)] none = none ∧
    (([(0, 50)] : List (Nat × Nat)).map Prod.fst).Nodup ∧
    (([(0, 50)] : List (Nat × Nat)).map Prod.snd).sum ≤
      specResolvedMaxTokenSupply 100 none := by
  refine ⟨rfl, by decide, by decide⟩

/-- C7 (amended): genesis aborts, committing no state, exactly when the
seed list has a duplicate account or the seed sum exceeds the resolved max
token supply, where an absent override resolves to zero (the
configured-default substitution happens in the `Default` constructor of the
genesis config, not in the build itself); the abort condition is invariant
under reordering of the seed list; otherwise the build commits
`free = seed balance, locked = 0` for every seed pair, no other account
entries, and `TotalIssuance = seed sum`. -/
theorem genesisBuild_spec (balances balances' : List (A × Nat))
    (override : Option Nat) :
    (genesisBuild balances override = none ↔
      ¬ (balances.map Prod.fst).Nodup ∨
        override.getD 0 < (balances.map Prod.snd).sum) ∧
    (balances.Perm balances' →
      (genesisBuild balances override = none ↔
        genesisBuild balances' override = none)) ∧
    ((balances.map Prod.fst).Nodup →
      (balances.map Prod.snd).sum ≤ override.getD 0 →
      ∃ st : GenesisState A,
        genesisBuild balances override = some st ∧
        st.totalIssuance = some ((balances.map Prod.snd).sum) ∧
        (∀ p ∈ balances, lookupAL st.accountStore p.1 = some ⟨p.2, 0⟩) ∧
        (∀ a : A, a ∉ balances.map Prod.fst →
          lookupAL st.accountStore a = none)) := by
  refine ⟨genesisBuild_eq_none_iff balances override, ?_, ?_⟩
  · intro hp
    rw [genesisBuild_eq_none_iff, genesisBuild_eq_none_iff,
      (hp.map Prod.snd).sum_eq, (hp.map Prod.fst).nodup_iff]
  · intro hnd hle
    refine ⟨⟨balances.foldl (fun store p => insertAL store p.1 ⟨p.2, 0⟩) [],
      some ((balances.map Prod.snd).sum)⟩, ?_, rfl, ?_, ?_⟩
    · rw [genesisBuild_eq, if_pos hle, if_pos hnd]
    · intro p hp
      have := lookupAL_foldl_insert_mem (fun p => (⟨p.2, 0⟩ : AccountData))
        balances [] p.1 p.2 hnd (by rwa [Prod.mk.eta])
      simpa using this
    · intro a ha
      exact lookupAL_foldl_insert_not_mem _ balances [] a ha

/-- C7 witness: the two-seed list `[(1, 3), (2, 4)]` under override
`Some 10`: the abort condition agrees with that of its reordering, and the
build commits `TotalIssuance = 7` with account 1 stored as
`free = 3, locked = 0`. -/
theorem genesisBuild_spec_witness :
    (genesisBuild (A := Nat) [(1, 3), (2, 4)] (some 10) = none ↔
      genesisBuild (A := Nat) [(2, 4), (1, 3)] (some 10) = none) ∧
    ∃ st : GenesisState Nat,
      genesisBuild (A := Nat) [(1, 3), (2, 4)] (some 10) = some st ∧
      st.totalIssuance = some 7 ∧
      lookupAL st.accountStore 1 = some ⟨3, 0⟩ := by
  have h := genesisBuild_spec (A := Nat) [(1, 3), (2, 4)] [(2, 4), (1, 3)] (some 10)
  refine ⟨h.2.1 (by decide), ?_⟩
  obtain ⟨st, h1, h2, h3, _⟩ := h.2.2 (by decide) (by decide)
  exact ⟨st, h1, h2, h3 (1, 3) (by decide)⟩

end Kryptokurrency

end HODL
